import Mathlib

/-!
# Verification of the apisecure session / rate-limiting core

Shallow embedding of `src/auth/sessionManagement.ts` and
`src/protection/rateLimiter.ts`.

Modelling conventions:

* `Date.now()` is threaded as an explicit `now : Nat` argument (milliseconds).
* A JavaScript `Map` is modelled as an association list with `Map` semantics:
  `set` overwrites an existing key in place (keeping insertion order) and
  otherwise appends; `delete` removes the entry; iteration follows insertion
  order, and deleting entries while iterating (as `cleanup` loops do) is the
  same as filtering.
* `getConfig()` is read by the TypeScript code at each call site; the value it
  returns at that moment (`sessionTTL`) is passed as an explicit argument to
  the operations that read it.
* The rate limiter keys its storage by the string `clientId + ":" + windowMs`.
  Since the decimal rendering of `windowMs` contains no colon, the substring
  after the last colon recovers `windowMs` uniquely, so the key is in
  bijection with the pair `(clientId, windowMs)`; we use the pair directly.
-/

namespace JsMap

/-- `Map.get`: the value stored at `k`, if any. -/
def lookup {κ α : Type} [DecidableEq κ] : List (κ × α) → κ → Option α
  | [], _ => none
  | kv :: rest, k => if kv.1 = k then some kv.2 else lookup rest k

/-- `Map.set`: overwrite an existing entry in place, else append. -/
def set {κ α : Type} [DecidableEq κ] : List (κ × α) → κ → α → List (κ × α)
  | [], k, v => [(k, v)]
  | kv :: rest, k, v => if kv.1 = k then (k, v) :: rest else kv :: set rest k v

/-- `Map.delete`: remove the entry stored at `k`. -/
def erase {κ α : Type} [DecidableEq κ] : List (κ × α) → κ → List (κ × α)
  | [], _ => []
  | kv :: rest, k => if kv.1 = k then rest else kv :: erase rest k

variable {κ α : Type} [DecidableEq κ]

theorem lookup_set_self (l : List (κ × α)) (k : κ) (v : α) :
    lookup (set l k v) k = some v := by
  induction l with
  | nil => simp [set, lookup]
  | cons kv rest ih =>
    by_cases h : kv.1 = k
    · simp [set, lookup, h]
    · simp [set, lookup, h, ih]

theorem lookup_set_ne (l : List (κ × α)) (k k' : κ) (v : α) (h : k ≠ k') :
    lookup (set l k v) k' = lookup l k' := by
  induction l with
  | nil => simp [set, lookup, h]
  | cons kv rest ih =>
    by_cases hk : kv.1 = k
    · simp [set, lookup, hk, h]
    · simp only [set, if_neg hk, lookup]
      by_cases hk' : kv.1 = k'
      · simp [hk']
      · simp [hk', ih]

theorem lookup_erase_ne (l : List (κ × α)) (k k' : κ) (h : k ≠ k') :
    lookup (erase l k) k' = lookup l k' := by
  induction l with
  | nil => simp [erase]
  | cons kv rest ih =>
    by_cases hk : kv.1 = k
    · simp [erase, if_pos hk, lookup, hk, h]
    · simp only [erase, if_neg hk, lookup]
      by_cases hk' : kv.1 = k'
      · simp [hk']
      · simp [hk', ih]

theorem lookup_none_of_lookup_none_erase (l : List (κ × α)) (k k' : κ)
    (h : lookup l k' = none) : lookup (erase l k) k' = none := by
  induction l with
  | nil => exact h
  | cons kv rest ih =>
    simp only [lookup] at h
    by_cases hh : kv.1 = k'
    · simp [hh] at h
    · simp only [if_neg hh] at h
      by_cases hk : kv.1 = k
      · simpa [erase, hk] using h
      · simp [erase, hk, lookup, hh, ih h]

theorem lookup_none_of_lookup_none_filter (l : List (κ × α)) (p : κ × α → Bool)
    (k : κ) (h : lookup l k = none) : lookup (l.filter p) k = none := by
  induction l with
  | nil => exact h
  | cons kv rest ih =>
    simp only [lookup] at h
    by_cases hh : kv.1 = k
    · simp [hh] at h
    · simp only [if_neg hh] at h
      by_cases hp : p kv
      · simp [List.filter_cons, hp, lookup, hh, ih h]
      · simp [List.filter_cons, hp, ih h]

theorem lookup_none_of_not_mem_keys (l : List (κ × α)) (k : κ)
    (h : k ∉ l.map Prod.fst) : lookup l k = none := by
  induction l with
  | nil => rfl
  | cons kv rest ih =>
    simp only [List.map_cons, List.mem_cons] at h
    push_neg at h
    have hne : ¬kv.1 = k := fun hh => h.1 hh.symm
    simp [lookup, hne, ih h.2]

theorem lookup_filter_of_nodup (l : List (κ × α)) (p : κ × α → Bool) (k : κ) (v : α)
    (hnd : (l.map Prod.fst).Nodup) (h : lookup l k = some v) :
    lookup (l.filter p) k = if p (k, v) then some v else none := by
  induction l with
  | nil => simp [lookup] at h
  | cons kv rest ih =>
    simp only [List.map_cons, List.nodup_cons] at hnd
    simp only [lookup] at h
    by_cases hh : kv.1 = k
    · simp only [if_pos hh] at h
      obtain rfl := Option.some_injective _ h
      have hrest : lookup rest k = none :=
        lookup_none_of_not_mem_keys rest k (hh ▸ hnd.1)
      by_cases hp : p kv
      · have : p (k, kv.2) = true := by rwa [← hh]
        simp [List.filter_cons, hp, lookup, hh, this]
      · have : p (k, kv.2) = false := by simp only [← hh]; simpa using hp
        simp [List.filter_cons, hp, this,
          lookup_none_of_lookup_none_filter rest p k hrest]
    · simp only [if_neg hh] at h
      by_cases hp : p kv
      · simp [List.filter_cons, hp, lookup, hh, ih hnd.2 h]
      · simp [List.filter_cons, hp, ih hnd.2 h]

end JsMap

/-! ## Session store (`src/auth/sessionManagement.ts`) -/

/-- `Session` record (sessionManagement.ts lines 12–18).  The `data` payload
holds arbitrary JavaScript values; we parametrise over their type `α` and
model the string-keyed object as an association list. -/
structure Session (α : Type) where
  id : String
  userId : String
  createdAt : Nat
  expiresAt : Nat
  data : List (String × α)
deriving DecidableEq

/-- The `sessions : Map<string, Session>` of `InMemorySessionStore`. -/
def Store (α : Type) : Type := List (String × Session α)

instance {α : Type} [DecidableEq α] : DecidableEq (Store α) := by
  unfold Store
  infer_instance

namespace InMemorySessionStore

variable {α : Type}

/-- `create(userId, data)`: stamps `createdAt = now`,
`expiresAt = now + config.sessionTTL` and stores under a freshly generated
random id.  `sessionTTL` is the value `getConfig().sessionTTL` has at the
moment of the call (the source calls `getConfig()` inside `create`), and
`sessionId` stands for `randomBytes(32).toString("hex")`. -/
def create (st : Store α) (userId : String) (data : List (String × α))
    (now sessionTTL : Nat) (sessionId : String) : Session α × Store α :=
  let session : Session α :=
    { id := sessionId, userId := userId, createdAt := now,
      expiresAt := now + sessionTTL, data := data }
  (session, JsMap.set st sessionId session)

/-- `delete(sessionId)`: `sessions.delete(sessionId)`. -/
def delete (st : Store α) (sessionId : String) : Store α :=
  JsMap.erase st sessionId

/-- `get(sessionId)`: absent if missing; if `expiresAt < Date.now()` the
record is deleted (lazy eviction) and the call returns null; otherwise the
record is returned.  The returned pair is (result, store after the call). -/
def get (st : Store α) (sessionId : String) (now : Nat) :
    Option (Session α) × Store α :=
  match JsMap.lookup st sessionId with
  | none => (none, st)
  | some session =>
    if session.expiresAt < now then (none, delete st sessionId)
    else (some session, st)

/-- The object spread `{ ...a, ...b }`: keys of `b` overwrite matching keys
of `a`, the rest of `a` is kept. -/
def spreadMerge (a b : List (String × α)) : List (String × α) :=
  b.foldl (fun acc kv => JsMap.set acc kv.1 kv.2) a

/-- `update(sessionId, data)`: reads through `get` (so an expired record is
lazily evicted), and if a live session came back, writes it back with
`data = { ...session.data, ...data }`. -/
def update (st : Store α) (sessionId : String) (data : List (String × α))
    (now : Nat) : Store α :=
  match get st sessionId now with
  | (some session, st') =>
      JsMap.set st' sessionId { session with data := spreadMerge session.data data }
  | (none, st') => st'

/-- `cleanup()`: deletes every record with `expiresAt < now` while iterating
the map. -/
def cleanup (st : Store α) (now : Nat) : Store α :=
  st.filter (fun kv => !(kv.2.expiresAt < now))

/-- `refresh(sessionId)`: reads the raw map (NOT through `get`, so no expiry
check) and, when an entry exists, sets `expiresAt = now + config.sessionTTL`.
`sessionTTL` is again the call-time `getConfig().sessionTTL`. -/
def refresh (st : Store α) (sessionId : String) (now sessionTTL : Nat) :
    Store α :=
  match JsMap.lookup st sessionId with
  | none => st
  | some session =>
      JsMap.set st sessionId { session with expiresAt := now + sessionTTL }

end InMemorySessionStore

/-! ## Rate limiter (`src/protection/rateLimiter.ts`) -/

structure RateLimitRule where
  windowMs : Nat
  maxRequests : Nat
deriving DecidableEq

structure RateLimitInfo where
  count : Nat
  resetTime : Nat
deriving DecidableEq

/-- Storage key: the source builds the string `clientId + ":" + windowMs`;
as the rendering of `windowMs` is colon-free the encoding is injective in
the pair, which we use directly. -/
abbrev RLKey : Type := String × Nat

structure RateLimiter where
  storage : List (RLKey × RateLimitInfo)
  rules : List RateLimitRule
deriving DecidableEq

namespace RateLimiter

/-- `cleanup()`: deletes every row with `now > resetTime` while iterating. -/
def cleanup (rl : RateLimiter) (now : Nat) : RateLimiter :=
  { rl with storage := rl.storage.filter (fun kv => !(kv.2.resetTime < now)) }

/-- One iteration of the `rules.forEach` body of `isAllowed`: fetch the
counter for `(clientId, windowMs)` (defaulting to `{count: 0, resetTime:
now + windowMs}`), roll the window over when `now > resetTime` (count ← 1)
or increment, write it back, and record a violation when the post-increment
count exceeds `maxRequests`. -/
def ruleStep (clientId : String) (now : Nat)
    (acc : List (RLKey × RateLimitInfo) × Bool) (rule : RateLimitRule) :
    List (RLKey × RateLimitInfo) × Bool :=
  let key : RLKey := (clientId, rule.windowMs)
  let limitInfo := (JsMap.lookup acc.1 key).getD
    { count := 0, resetTime := now + rule.windowMs }
  let limitInfo' :=
    if limitInfo.resetTime < now then
      { count := 1, resetTime := now + rule.windowMs }
    else
      { limitInfo with count := limitInfo.count + 1 }
  (JsMap.set acc.1 key limitInfo',
   acc.2 && !(rule.maxRequests < limitInfo'.count))

/-- `isAllowed(clientId)`: runs `cleanup()`, then the `forEach` above over
all rules, returning the flag and the mutated limiter. -/
def isAllowed (rl : RateLimiter) (clientId : String) (now : Nat) :
    Bool × RateLimiter :=
  let cleaned := (rl.cleanup now).storage
  let res := rl.rules.foldl (ruleStep clientId now) (cleaned, true)
  (res.2, { rl with storage := res.1 })

/-- `reset(clientId)`: deletes the client's row for every rule. -/
def reset (rl : RateLimiter) (clientId : String) : RateLimiter :=
  let st := rl.rules.foldl
    (fun s rule => JsMap.erase s (clientId, rule.windowMs)) rl.storage
  { rl with storage := st }

/-- Runs a list of `(clientId, time)` calls to `isAllowed`, collecting the
returned booleans. -/
def runCalls (rl : RateLimiter) : List (String × Nat) → List Bool
  | [] => []
  | e :: rest =>
    let r := rl.isAllowed e.1 e.2
    r.1 :: runCalls r.2 rest

/-- Written from the spec's words (§4.3), for comparison with `isAllowed`:
the post-increment counter a rule's window holds after the call — the
post-cleanup row rolls over to `{1, now + windowMs}` when `now > resetTime`,
otherwise increments; an absent row behaves as `{count: 0, resetTime: now +
windowMs}` and so ends at count 1. -/
def windowCounterAfter (rl : RateLimiter) (clientId : String) (now : Nat)
    (rule : RateLimitRule) : RateLimitInfo :=
  match JsMap.lookup (rl.cleanup now).storage (clientId, rule.windowMs) with
  | none => { count := 1, resetTime := now + rule.windowMs }
  | some info =>
    if now > info.resetTime then { count := 1, resetTime := now + rule.windowMs }
    else { count := info.count + 1, resetTime := info.resetTime }

/-- Written from the spec's words (§4.3): the call is allowed iff no rule's
post-increment count exceeds that rule's `maxRequests`. -/
def isAllowedSpec (rl : RateLimiter) (clientId : String) (now : Nat) : Bool :=
  rl.rules.all (fun rule =>
    (rl.windowCounterAfter clientId now rule).count ≤ rule.maxRequests)

end RateLimiter

/-! ## Brute-force protection (`src/protection/rateLimiter.ts` lines 87–162) -/

structure BruteForceProtection where
  failedAttempts : List (String × Nat)
  lastAttemptTime : List (String × Nat)
  maxAttempts : Nat
  lockoutDuration : Nat
deriving DecidableEq

namespace BruteForceProtection

/-- `new BruteForceProtection(maxAttempts, lockoutDuration)`: both maps start
empty (constructor defaults: 5 attempts, 15 minutes). -/
def make (maxAttempts lockoutDuration : Nat) : BruteForceProtection :=
  { failedAttempts := [], lastAttemptTime := [],
    maxAttempts := maxAttempts, lockoutDuration := lockoutDuration }

/-- `recordFailedAttempt(identifier)`: bumps the counter and stamps
`lastAttemptTime = Date.now()`. -/
def recordFailedAttempt (bf : BruteForceProtection) (identifier : String)
    (now : Nat) : BruteForceProtection :=
  let attempts := (JsMap.lookup bf.failedAttempts identifier).getD 0 + 1
  { bf with
    failedAttempts := JsMap.set bf.failedAttempts identifier attempts,
    lastAttemptTime := JsMap.set bf.lastAttemptTime identifier now }

/-- `resetAttempts(identifier)`: deletes both entries. -/
def resetAttempts (bf : BruteForceProtection) (identifier : String) :
    BruteForceProtection :=
  { bf with
    failedAttempts := JsMap.erase bf.failedAttempts identifier,
    lastAttemptTime := JsMap.erase bf.lastAttemptTime identifier }

/-- The purge condition of `clearExpiredLockouts` for one entry of
`failedAttempts`: `lastAttemptTime && attempts >= maxAttempts &&
now - lastAttemptTime > lockoutDuration` — note the JavaScript truthiness
test on the timestamp (a stored `0` would be falsy), and that `now -
lastAttemptTime` over `Nat` agrees with the JavaScript number subtraction
whenever `now ≥ lastAttemptTime`, while for `now < lastAttemptTime` both
sides make the comparison false. -/
def lockExpired (bf : BruteForceProtection) (now : Nat) (identifier : String)
    (attempts : Nat) : Bool :=
  match JsMap.lookup bf.lastAttemptTime identifier with
  | some t => t != 0 && bf.maxAttempts ≤ attempts && bf.lockoutDuration < now - t
  | none => false

/-- `clearExpiredLockouts()`: while iterating `failedAttempts`, deletes from
both maps every identifier whose lock has expired. -/
def clearExpiredLockouts (bf : BruteForceProtection) (now : Nat) :
    BruteForceProtection :=
  { bf with
    failedAttempts :=
      bf.failedAttempts.filter (fun kv => !(lockExpired bf now kv.1 kv.2)),
    lastAttemptTime :=
      bf.lastAttemptTime.filter (fun kv =>
        !(bf.failedAttempts.any (fun kv2 =>
            kv2.1 == kv.1 && lockExpired bf now kv2.1 kv2.2))) }

/-- `isAllowed(identifier)`: purge expired lockouts, then compare the count
against `maxAttempts`.  Returns the flag and the mutated object. -/
def isAllowed (bf : BruteForceProtection) (identifier : String) (now : Nat) :
    Bool × BruteForceProtection :=
  let bf' := clearExpiredLockouts bf now
  ((JsMap.lookup bf'.failedAttempts identifier).getD 0 < bf'.maxAttempts, bf')

/-- Folds `recordFailedAttempt` over a list of attempt times. -/
def recordMany (bf : BruteForceProtection) (identifier : String)
    (times : List Nat) : BruteForceProtection :=
  times.foldl (fun acc t => acc.recordFailedAttempt identifier t) bf

end BruteForceProtection

/-! ## Session manager (`src/auth/sessionManagement.ts` lines 92–153) -/

/-- JavaScript exception kinds thrown by `createSession`: a `TypeError`
raised by calling a value that is not a function, or an `Error(msg)`. -/
inductive JsError where
  | typeError (msg : String)
  | error (msg : String)
deriving DecidableEq

/-- The `RateLimiter` class (rateLimiter.ts lines 16–84) defines the methods
`getClientIdentifier`, `cleanup`, `isAllowed`, `middleware` and `reset` — and
no `tryAcquire`.  The property access `this.rateLimiter.tryAcquire` performed
by `SessionManager.createSession` therefore evaluates to `undefined`; we
record the outcome of that method lookup. -/
def RateLimiter.tryAcquireMethod :
    Option (RateLimiter → String → Nat → Bool × RateLimiter) := none

structure SessionManager (α : Type) where
  store : Store α
  rateLimiter : RateLimiter

/-- The `SessionManager` constructor: empty store (by default) and a rate
limiter hard-coded to the single rule `{windowMs: 60000, maxRequests: 10}`. -/
def SessionManager.make (α : Type) : SessionManager α :=
  { store := ([] : List (String × Session α)),
    rateLimiter := { storage := [], rules := [⟨60000, 10⟩] } }

/-- `createSession(userId, data?)`: evaluates
`this.rateLimiter.tryAcquire(userId)`.  Since `RateLimiter` has no such
method the call throws a `TypeError`; had the method existed, a falsy return
would throw `Error("Rate limit exceeded for session creation")` and a truthy
one would delegate to `store.create`. -/
def SessionManager.createSession {α : Type} (m : SessionManager α)
    (userId : String) (data : List (String × α)) (now sessionTTL : Nat)
    (freshId : String) : Except JsError (Session α × SessionManager α) :=
  match RateLimiter.tryAcquireMethod with
  | none =>
      Except.error (JsError.typeError "this.rateLimiter.tryAcquire is not a function")
  | some f =>
      let r := f m.rateLimiter userId now
      if r.1 then
        let c := InMemorySessionStore.create m.store userId data now sessionTTL freshId
        Except.ok (c.1, { store := c.2, rateLimiter := r.2 })
      else
        Except.error (JsError.error "Rate limit exceeded for session creation")

/-- `getSession(sessionId)`: direct passthrough to `store.get`. -/
def SessionManager.getSession {α : Type} (m : SessionManager α)
    (sessionId : String) (now : Nat) : Option (Session α) × SessionManager α :=
  let r := InMemorySessionStore.get m.store sessionId now
  (r.1, { m with store := r.2 })

/-! ## Auxiliary lemmas -/

namespace JsMap

theorem lookup_filter_char {κ α : Type} [DecidableEq κ] (l : List (κ × α))
    (p : κ × α → Bool) (k : κ) (hnd : (l.map Prod.fst).Nodup) :
    lookup (l.filter p) k =
      match lookup l k with
      | some v => if p (k, v) then some v else none
      | none => none := by
  cases h : lookup l k with
  | none => simpa using lookup_none_of_lookup_none_filter l p k h
  | some v => simpa using lookup_filter_of_nodup l p k v hnd h

end JsMap

namespace InMemorySessionStore

variable {α : Type}

theorem lookup_spreadMerge (a : List (String × α)) :
    ∀ b : List (String × α), (b.map Prod.fst).Nodup → ∀ k : String,
      JsMap.lookup (spreadMerge a b) k =
        match JsMap.lookup b k with
        | some v => some v
        | none => JsMap.lookup a k := by
  intro b
  induction b generalizing a with
  | nil => intro _ k; simp [spreadMerge, JsMap.lookup]
  | cons kv rest ih =>
    intro hnd k
    simp only [List.map_cons, List.nodup_cons] at hnd
    have step : spreadMerge a (kv :: rest) = spreadMerge (JsMap.set a kv.1 kv.2) rest := by
      simp [spreadMerge]
    rw [step, ih (JsMap.set a kv.1 kv.2) hnd.2 k]
    by_cases hk : kv.1 = k
    · have hrest : JsMap.lookup rest k = none :=
        JsMap.lookup_none_of_not_mem_keys rest k (hk ▸ hnd.1)
      simp [JsMap.lookup, hrest, hk, hk ▸ JsMap.lookup_set_self a kv.1 kv.2]
    · simp only [JsMap.lookup, if_neg hk]
      cases hr : JsMap.lookup rest k with
      | none => simp [JsMap.lookup_set_ne a kv.1 k kv.2 hk]
      | some v => simp

end InMemorySessionStore

/-! ## Claim theorems -/

/-- Concrete manager used to evaluate `createSession` (claim C1): the state a
fresh `new SessionManager()` starts in. -/
def mgrC1 : SessionManager Nat := SessionManager.make Nat

/-- C1: the claim says `createSession` returns the new session while the
per-userId creation rate is within the limiter's limit and throws
`RateLimitExceeded` exactly when it is exceeded — in particular the first
creation for a fresh `userId` succeeds.  In the code, however,
`createSession` calls `this.rateLimiter.tryAcquire(userId)`, a method the
`RateLimiter` class never defines (its only query method is `isAllowed`), so
already the very first creation fails with a `TypeError` instead of
returning a session: evaluated here at `userId = "u1"` on a freshly
constructed manager. -/
theorem C1_createSession_first_call_throws :
    SessionManager.createSession mgrC1 "u1" [] 100 1000 "sid" =
      Except.error (JsError.typeError "this.rateLimiter.tryAcquire is not a function") := by
  rfl

/-- C2: `get(id)` returns the stored record iff it is present and
`expiresAt ≥ now` (so a read at exactly `now = expiresAt` still returns it),
and when the record is present but expired (`expiresAt < now`) the call
deletes it and returns absent. -/
theorem C2_get_lazy_eviction {α : Type} (st : Store α) (sessionId : String)
    (now : Nat) :
    (∀ s : Session α,
        (InMemorySessionStore.get st sessionId now).1 = some s ↔
          JsMap.lookup st sessionId = some s ∧ now ≤ s.expiresAt) ∧
    (∀ s : Session α, JsMap.lookup st sessionId = some s → s.expiresAt < now →
        InMemorySessionStore.get st sessionId now =
          (none, InMemorySessionStore.delete st sessionId)) := by
  constructor
  · intro s
    cases h : JsMap.lookup st sessionId with
    | none => simp [InMemorySessionStore.get, h]
    | some s' =>
      by_cases hexp : s'.expiresAt < now
      · simp only [InMemorySessionStore.get, h, if_pos hexp]
        constructor
        · intro hc; exact absurd hc (by simp)
        · rintro ⟨hs, hle⟩
          obtain rfl := Option.some_injective _ hs
          omega
      · simp only [InMemorySessionStore.get, h, if_neg hexp]
        constructor
        · rintro hs
          obtain rfl := Option.some_injective _ hs
          exact ⟨rfl, by omega⟩
        · rintro ⟨hs, _⟩
          exact hs.symm ▸ rfl
  · intro s hs hexp
    simp [InMemorySessionStore.get, hs, hexp]

/-- Witness for C2 at a concrete store: the session stored under `"e"`
expires at 10, and a read at time 11 evicts it and returns absent. -/
theorem C2_get_lazy_eviction_witness :
    InMemorySessionStore.get
        ([("e", ⟨"e", "u", 0, 10, []⟩)] : Store Nat) "e" 11 =
      (none, InMemorySessionStore.delete
        ([("e", ⟨"e", "u", 0, 10, []⟩)] : Store Nat) "e") :=
  (C2_get_lazy_eviction ([("e", ⟨"e", "u", 0, 10, []⟩)] : Store Nat) "e" 11).2
    ⟨"e", "u", 0, 10, []⟩ (by decide) (by decide)

/-- C8: `cleanup()` removes exactly the records with `expiresAt < now`:
after the sweep an id maps to a record iff it mapped to that same record
before and the record was still valid (`expiresAt ≥ now`, equality
included). -/
theorem C8_cleanup_removes_exactly_expired {α : Type} (st : Store α)
    (now : Nat) (hnd : (st.map Prod.fst).Nodup) :
    ∀ (sessionId : String) (s : Session α),
      JsMap.lookup (InMemorySessionStore.cleanup st now) sessionId = some s ↔
        JsMap.lookup st sessionId = some s ∧ now ≤ s.expiresAt := by
  intro sessionId s
  rw [InMemorySessionStore.cleanup,
    JsMap.lookup_filter_char st _ sessionId hnd]
  cases h : JsMap.lookup st sessionId with
  | none => simp
  | some v =>
    by_cases hexp : v.expiresAt < now
    · simp only [hexp]
      constructor
      · intro hc; exact absurd hc (by simp)
      · rintro ⟨hs, hle⟩
        obtain rfl := Option.some_injective _ hs
        omega
    · simp only [hexp]
      constructor
      · rintro hs
        obtain rfl := Option.some_injective _ (by simpa using hs)
        exact ⟨rfl, by omega⟩
      · rintro ⟨hs, _⟩
        obtain rfl := Option.some_injective _ hs
        simp

/-- Witness for C8 at a concrete two-session store: the record expiring at
10 is swept at time 11, the record expiring at 20 survives with its data
intact. -/
theorem C8_cleanup_removes_exactly_expired_witness :
    JsMap.lookup
        (InMemorySessionStore.cleanup
          ([("a", ⟨"a", "u", 0, 10, []⟩), ("b", ⟨"b", "v", 0, 20, []⟩)] : Store Nat) 11)
        "b" = some ⟨"b", "v", 0, 20, []⟩ :=
  (C8_cleanup_removes_exactly_expired
      ([("a", ⟨"a", "u", 0, 10, []⟩), ("b", ⟨"b", "v", 0, 20, []⟩)] : Store Nat)
      11 (by decide) "b" ⟨"b", "v", 0, 20, []⟩).mpr ⟨by decide, by decide⟩

/-- C9 counterexample: two runs whose construction is identical (the store
constructor consumes no configuration at all) and whose call inputs differ
only in the `getConfig().sessionTTL` value read *at the time of the
`create` call* produce different `expiresAt` stamps — so `expiresAt` is
computed from the call-time configuration, not from "the sessionTTL in
effect at construction" as the claim states. -/
theorem C9_counterexample :
    (InMemorySessionStore.create ([] : Store Nat) "u1" [] 100 1000 "sid").1.expiresAt ≠
      (InMemorySessionStore.create ([] : Store Nat) "u1" [] 100 2000 "sid").1.expiresAt := by
  decide

/-- C9 (amended): the rate limiter's rules and the brute-force parameters
are fixed at construction — no operation changes them — but `sessionTTL` is
read from the live configuration on every `create` and `refresh` call:
`create` stamps `expiresAt = now + ttl` and `refresh` re-stamps
`expiresAt = now + ttl` for whatever `ttl = getConfig().sessionTTL` holds at
that call. -/
theorem C9_amended_config_read_sites {α : Type} (st : Store α) (u : String)
    (d : List (String × α)) (now ttl : Nat) (sid : String) :
    ((InMemorySessionStore.create st u d now ttl sid).1.expiresAt = now + ttl) ∧
    (∀ s : Session α, JsMap.lookup st sid = some s →
       JsMap.lookup (InMemorySessionStore.refresh st sid now ttl) sid =
         some { s with expiresAt := now + ttl }) ∧
    (∀ (bf : BruteForceProtection) (x : String),
       ((bf.recordFailedAttempt x now).maxAttempts = bf.maxAttempts ∧
        (bf.recordFailedAttempt x now).lockoutDuration = bf.lockoutDuration) ∧
       ((bf.resetAttempts x).maxAttempts = bf.maxAttempts ∧
        (bf.resetAttempts x).lockoutDuration = bf.lockoutDuration) ∧
       ((bf.isAllowed x now).2.maxAttempts = bf.maxAttempts ∧
        (bf.isAllowed x now).2.lockoutDuration = bf.lockoutDuration)) ∧
    (∀ (rl : RateLimiter) (c : String),
       (rl.isAllowed c now).2.rules = rl.rules ∧ (rl.reset c).rules = rl.rules) := by
  refine ⟨rfl, ?_, ?_, ?_⟩
  · intro s hs
    simp [InMemorySessionStore.refresh, hs, JsMap.lookup_set_self]
  · intro bf x
    exact ⟨⟨rfl, rfl⟩, ⟨rfl, rfl⟩, ⟨rfl, rfl⟩⟩
  · intro rl c
    exact ⟨rfl, rfl⟩

/-- Witness for C9 (amended): a concrete refresh at time 50 with call-time
TTL 7 re-stamps the record to expire at 57. -/
theorem C9_amended_config_read_sites_witness :
    JsMap.lookup
        (InMemorySessionStore.refresh
          ([("s", ⟨"s", "u", 0, 10, []⟩)] : Store Nat) "s" 50 7) "s" =
      some ⟨"s", "u", 0, 50 + 7, []⟩ :=
  (C9_amended_config_read_sites ([("s", ⟨"s", "u", 0, 10, []⟩)] : Store Nat)
      "u" [] 50 7 "s").2.1 ⟨"s", "u", 0, 10, []⟩ (by decide)

/-- Concrete store for the C7 counterexample: one session, expired by time
11, with one data key. -/
def stC7 : Store Nat := [("s", ⟨"s", "u", 0, 10, [("k", 0)]⟩)]

/-- C7 counterexample: the claim says `update` is a **no-op** when the
session is present but expired; in the code `update` reads through `get`,
which lazily evicts the expired record, so the store visibly changes (the
record is removed).  Evaluated at time 11 on a record that expired at 10. -/
theorem C7_counterexample :
    JsMap.lookup stC7 "s" = some ⟨"s", "u", 0, 10, [("k", 0)]⟩ ∧
    (10 : Nat) < 11 ∧
    InMemorySessionStore.update stC7 "s" [("j", 1)] 11 ≠ stC7 ∧
    InMemorySessionStore.update stC7 "s" [("j", 1)] 11 = [] := by
  decide

/-- C7 (amended): `update(id, partialData)` leaves the store unchanged when
the session is absent; when the session is present but expired it evicts the
record (the lazy eviction of the internal `get`) and writes no merge; when
the session is live it rewrites exactly the one record, replacing its `data`
by the shallow merge in which every key of `partialData` overwrites the
matching key of `data` and all other keys survive, while `id`, `userId`,
`createdAt` and `expiresAt` are untouched; records under other ids are never
affected. -/
theorem C7_update_shallow_merge {α : Type} (st : Store α) (sessionId : String)
    (d : List (String × α)) (now : Nat) :
    (JsMap.lookup st sessionId = none →
       InMemorySessionStore.update st sessionId d now = st) ∧
    (∀ s : Session α, JsMap.lookup st sessionId = some s → s.expiresAt < now →
       InMemorySessionStore.update st sessionId d now =
         InMemorySessionStore.delete st sessionId) ∧
    (∀ s : Session α, JsMap.lookup st sessionId = some s → now ≤ s.expiresAt →
       InMemorySessionStore.update st sessionId d now =
         JsMap.set st sessionId
           { s with data := InMemorySessionStore.spreadMerge s.data d } ∧
       JsMap.lookup (InMemorySessionStore.update st sessionId d now) sessionId =
         some { s with data := InMemorySessionStore.spreadMerge s.data d } ∧
       ((d.map Prod.fst).Nodup → ∀ k : String,
          JsMap.lookup (InMemorySessionStore.spreadMerge s.data d) k =
            match JsMap.lookup d k with
            | some v => some v
            | none => JsMap.lookup s.data k)) ∧
    (∀ sessionId' : String, sessionId ≠ sessionId' →
       JsMap.lookup (InMemorySessionStore.update st sessionId d now) sessionId' =
         JsMap.lookup st sessionId') := by
  refine ⟨?_, ?_, ?_, ?_⟩
  · intro h
    simp [InMemorySessionStore.update, InMemorySessionStore.get, h]
  · intro s hs hexp
    simp [InMemorySessionStore.update, InMemorySessionStore.get, hs, hexp]
  · intro s hs hle
    have hexp : ¬s.expiresAt < now := by omega
    have hupd : InMemorySessionStore.update st sessionId d now =
        JsMap.set st sessionId
          { s with data := InMemorySessionStore.spreadMerge s.data d } := by
      simp [InMemorySessionStore.update, InMemorySessionStore.get, hs, hexp]
    refine ⟨hupd, ?_, ?_⟩
    · rw [hupd, JsMap.lookup_set_self]
    · intro hnd k
      exact InMemorySessionStore.lookup_spreadMerge s.data d hnd k
  · intro sessionId' hne
    cases hs : JsMap.lookup st sessionId with
    | none =>
      simp [InMemorySessionStore.update, InMemorySessionStore.get, hs]
    | some s =>
      by_cases hexp : s.expiresAt < now
      · simp [InMemorySessionStore.update, InMemorySessionStore.get, hs, hexp,
          InMemorySessionStore.delete, JsMap.lookup_erase_ne st sessionId sessionId' hne]
      · simp [InMemorySessionStore.update, InMemorySessionStore.get, hs, hexp,
          JsMap.lookup_set_ne st sessionId sessionId' _ hne]

/-- Witness for C7 (amended) on a live session: updating `{b, c}` into data
`{a, b}` rewrites the single record to the shallow merge. -/
theorem C7_update_shallow_merge_witness :
    InMemorySessionStore.update
        ([("s", ⟨"s", "u", 0, 100, [("a", 1), ("b", 2)]⟩)] : Store Nat)
        "s" [("b", 9), ("c", 3)] 50 =
      JsMap.set ([("s", ⟨"s", "u", 0, 100, [("a", 1), ("b", 2)]⟩)] : Store Nat)
        "s" ⟨"s", "u", 0, 100,
          InMemorySessionStore.spreadMerge [("a", 1), ("b", 2)] [("b", 9), ("c", 3)]⟩ :=
  ((C7_update_shallow_merge
      ([("s", ⟨"s", "u", 0, 100, [("a", 1), ("b", 2)]⟩)] : Store Nat)
      "s" [("b", 9), ("c", 3)] 50).2.2.1
    ⟨"s", "u", 0, 100, [("a", 1), ("b", 2)]⟩ (by decide) (by decide)).1

/-- `refreshSession(sessionId)`: manager passthrough to `store.refresh`. -/
def SessionManager.refreshSession {α : Type} (m : SessionManager α)
    (sessionId : String) (now sessionTTL : Nat) : SessionManager α :=
  { m with store := InMemorySessionStore.refresh m.store sessionId now sessionTTL }

/-- Concrete manager for the C6 counterexample: one stored session that
expires at time 10, never read after its expiry. -/
def mgrC6 : SessionManager Nat :=
  { store := [("s", ⟨"s", "u", 0, 10, []⟩)],
    rateLimiter := { storage := [], rules := [⟨60000, 10⟩] } }

/-- C6 counterexample: at time 11 the session under `"s"` is EXPIRED (the
current time has passed its `expiresAt = 10`), yet a `refreshSession` call
at time 11 — `refresh` reads the raw map without any expiry check — re-stamps
`expiresAt` to 111 and the very next `getSession` returns a valid session
for the same id again: an EXPIRED → ACTIVE transition through `refresh`. -/
theorem C6_counterexample :
    JsMap.lookup mgrC6.store "s" = some ⟨"s", "u", 0, 10, []⟩ ∧
    (10 : Nat) < 11 ∧
    ((mgrC6.refreshSession "s" 11 100).getSession "s" 11).1 =
      some ⟨"s", "u", 0, 111, []⟩ := by
  decide

/-- The store-level operations a session id can be subjected to after
creation (`get`, `update`, `delete`, `cleanup`, `refresh`), each carrying
the clock value — and for `refresh` the call-time TTL — it runs with. -/
inductive StoreOp (α : Type) where
  | getOp (sessionId : String) (now : Nat)
  | updateOp (sessionId : String) (data : List (String × α)) (now : Nat)
  | deleteOp (sessionId : String)
  | cleanupOp (now : Nat)
  | refreshOp (sessionId : String) (now sessionTTL : Nat)

/-- The store state after one operation (results are discarded). -/
def applyOp {α : Type} (st : Store α) : StoreOp α → Store α
  | .getOp sessionId now => (InMemorySessionStore.get st sessionId now).2
  | .updateOp sessionId d now => InMemorySessionStore.update st sessionId d now
  | .deleteOp sessionId => InMemorySessionStore.delete st sessionId
  | .cleanupOp now => InMemorySessionStore.cleanup st now
  | .refreshOp sessionId now ttl => InMemorySessionStore.refresh st sessionId now ttl

/-- The store state after a sequence of operations. -/
def applyOps {α : Type} (st : Store α) (ops : List (StoreOp α)) : Store α :=
  ops.foldl applyOp st

/-- None of the five store operations ever inserts an id that is absent. -/
theorem applyOp_preserves_absence {α : Type} (st : Store α) (sessionId : String)
    (h : JsMap.lookup st sessionId = none) (op : StoreOp α) :
    JsMap.lookup (applyOp st op) sessionId = none := by
  cases op with
  | getOp sessionId' now =>
    simp only [applyOp, InMemorySessionStore.get]
    cases hs : JsMap.lookup st sessionId' with
    | none => exact h
    | some s =>
      by_cases hexp : s.expiresAt < now
      · simpa [hexp, InMemorySessionStore.delete] using
          JsMap.lookup_none_of_lookup_none_erase st sessionId' sessionId h
      · simpa [hexp] using h
  | updateOp sessionId' d now =>
    simp only [applyOp, InMemorySessionStore.update, InMemorySessionStore.get]
    cases hs : JsMap.lookup st sessionId' with
    | none => exact h
    | some s =>
      by_cases hexp : s.expiresAt < now
      · simpa [hexp, InMemorySessionStore.delete] using
          JsMap.lookup_none_of_lookup_none_erase st sessionId' sessionId h
      · have hne : sessionId' ≠ sessionId := by
          intro hcontra
          rw [hcontra] at hs
          rw [hs] at h
          exact Option.noConfusion h
        simpa [hexp] using
          (JsMap.lookup_set_ne st sessionId' sessionId _ hne).trans h
  | deleteOp sessionId' =>
    simpa [applyOp, InMemorySessionStore.delete] using
      JsMap.lookup_none_of_lookup_none_erase st sessionId' sessionId h
  | cleanupOp now =>
    simpa [applyOp, InMemorySessionStore.cleanup] using
      JsMap.lookup_none_of_lookup_none_filter st _ sessionId h
  | refreshOp sessionId' now ttl =>
    simp only [applyOp, InMemorySessionStore.refresh]
    cases hs : JsMap.lookup st sessionId' with
    | none => exact h
    | some s =>
      have hne : sessionId' ≠ sessionId := by
        intro hcontra
        rw [hcontra] at hs
        rw [hs] at h
        exact Option.noConfusion h
      exact (JsMap.lookup_set_ne st sessionId' sessionId _ hne).trans h

/-- C6 (amended): once a session id is no longer in the store — whether it
was deleted explicitly, lazily evicted by a read of the expired record, or
swept by `cleanup` — no subsequent sequence of `get`, `update`, `delete`,
`cleanup` or `refresh` operations ever makes the id map to a record again,
and `getSession(id)` keeps returning absent at every time.  (The EXPIRED →
ACTIVE transition of the counterexample is only possible while the expired
record is still physically present, via `refresh`, which reads the raw map
without an expiry check.) -/
theorem C6_no_resurrection_after_removal {α : Type} (st : Store α)
    (sessionId : String) (h : JsMap.lookup st sessionId = none)
    (ops : List (StoreOp α)) :
    JsMap.lookup (applyOps st ops) sessionId = none ∧
    ∀ now : Nat, (InMemorySessionStore.get (applyOps st ops) sessionId now).1 = none := by
  have habs : JsMap.lookup (applyOps st ops) sessionId = none := by
    induction ops generalizing st with
    | nil => exact h
    | cons op rest ih =>
      exact ih (applyOp st op) (applyOp_preserves_absence st sessionId h op)
  refine ⟨habs, fun now => ?_⟩
  simp [InMemorySessionStore.get, habs]

/-- Witness for C6 (amended): after the id `"gone"` was evicted, a delete of
another id, a refresh of `"gone"` itself and a cleanup still leave
`getSession "gone"` absent. -/
theorem C6_no_resurrection_after_removal_witness :
    JsMap.lookup
        (applyOps ([("a", ⟨"a", "u", 0, 50, []⟩)] : Store Nat)
          [.deleteOp "a", .refreshOp "gone" 5 100, .cleanupOp 7]) "gone" = none ∧
    ∀ now : Nat,
      (InMemorySessionStore.get
          (applyOps ([("a", ⟨"a", "u", 0, 50, []⟩)] : Store Nat)
            [.deleteOp "a", .refreshOp "gone" 5 100, .cleanupOp 7]) "gone" now).1 = none :=
  C6_no_resurrection_after_removal ([("a", ⟨"a", "u", 0, 50, []⟩)] : Store Nat)
    "gone" (by decide) [.deleteOp "a", .refreshOp "gone" 5 100, .cleanupOp 7]

namespace BruteForceProtection

/-- State after repeatedly recording failures for `x` starting from a state
whose two maps hold exactly one entry for `x`: the count advances by the
number of calls and the timestamp becomes the last call's time. -/
theorem recordMany_single (x : String) (m d : Nat) :
    ∀ (ts : List Nat) (k t : Nat),
      recordMany ⟨[(x, k)], [(x, t)], m, d⟩ x ts =
        ⟨[(x, k + ts.length)], [(x, ts.foldl (fun _ n => n) t)], m, d⟩ := by
  intro ts
  induction ts with
  | nil => intro k t; simp [recordMany]
  | cons now rest ih =>
    intro k t
    have hstep : recordFailedAttempt ⟨[(x, k)], [(x, t)], m, d⟩ x now =
        ⟨[(x, k + 1)], [(x, now)], m, d⟩ := by
      simp [recordFailedAttempt, JsMap.lookup, JsMap.set]
    have hunf : recordMany ⟨[(x, k)], [(x, t)], m, d⟩ x (now :: rest) =
        recordMany (recordFailedAttempt ⟨[(x, k)], [(x, t)], m, d⟩ x now) x rest := by
      simp [recordMany]
    rw [hunf, hstep, ih (k + 1) now]
    have harith : k + 1 + rest.length = k + (now :: rest).length := by
      simp
      omega
    rw [harith]
    rfl

/-- State after recording failures at times `t0 :: rest` on a freshly
constructed instance. -/
theorem recordMany_make (x : String) (m d t0 : Nat) (rest : List Nat) :
    recordMany (make m d) x (t0 :: rest) =
      ⟨[(x, 1 + rest.length)], [(x, rest.foldl (fun _ n => n) t0)], m, d⟩ := by
  have h1 : recordFailedAttempt (make m d) x t0 = ⟨[(x, 1)], [(x, t0)], m, d⟩ := by
    simp [make, recordFailedAttempt, JsMap.lookup, JsMap.set]
  have hunf : recordMany (make m d) x (t0 :: rest) =
      recordMany (recordFailedAttempt (make m d) x t0) x rest := by
    simp [recordMany]
  rw [hunf, h1, recordMany_single]

end BruteForceProtection

/-- C4: with `maxAttempts = m ≥ 1` and `lockoutDurationMs = d`, after `m`
`recordFailedAttempt(x)` calls (at times `t0 :: rest`) with no intervening
reset: `isAllowed(x)` is false as long as no more than `d` ms have elapsed
since the last failure; `resetAttempts(x)` immediately makes `isAllowed(x)`
true; and once strictly more than `d` ms have elapsed since the last
failure, `isAllowed(x)` is true without any reset, the purge removing the
identifier's record entirely from both maps (full reset, not decay).  The
nonzero-timestamp hypothesis reflects the JavaScript truthiness test on
`lastAttemptTime` (`Date.now()` is never 0). -/
theorem C4_lockout_and_expiry (m d : Nat) (x : String) (t0 : Nat)
    (rest : List Nat) (hm : 1 ≤ m) (hlen : rest.length + 1 = m) :
    (∀ now : Nat, now - rest.foldl (fun _ n => n) t0 ≤ d →
       ((BruteForceProtection.recordMany (BruteForceProtection.make m d) x
           (t0 :: rest)).isAllowed x now).1 = false) ∧
    (∀ now : Nat,
       (((BruteForceProtection.recordMany (BruteForceProtection.make m d) x
           (t0 :: rest)).resetAttempts x).isAllowed x now).1 = true) ∧
    (∀ now : Nat, rest.foldl (fun _ n => n) t0 ≠ 0 →
       d < now - rest.foldl (fun _ n => n) t0 →
       ((BruteForceProtection.recordMany (BruteForceProtection.make m d) x
           (t0 :: rest)).isAllowed x now).1 = true ∧
       JsMap.lookup ((BruteForceProtection.recordMany (BruteForceProtection.make m d) x
           (t0 :: rest)).isAllowed x now).2.failedAttempts x = none ∧
       JsMap.lookup ((BruteForceProtection.recordMany (BruteForceProtection.make m d) x
           (t0 :: rest)).isAllowed x now).2.lastAttemptTime x = none) := by
  have hbf : BruteForceProtection.recordMany (BruteForceProtection.make m d) x
      (t0 :: rest) =
      ⟨[(x, m)], [(x, rest.foldl (fun _ n => n) t0)], m, d⟩ := by
    rw [BruteForceProtection.recordMany_make]
    have : 1 + rest.length = m := by omega
    rw [this]
  rw [hbf]
  set tm := rest.foldl (fun _ n => n) t0 with htm
  refine ⟨?_, ?_, ?_⟩
  · intro now hle
    have hnd : ¬d < now - tm := by omega
    simp [BruteForceProtection.isAllowed, BruteForceProtection.clearExpiredLockouts,
      BruteForceProtection.lockExpired, JsMap.lookup, hnd]
  · intro now
    simp [BruteForceProtection.resetAttempts, BruteForceProtection.isAllowed,
      BruteForceProtection.clearExpiredLockouts, JsMap.erase, JsMap.lookup, hm]
    omega
  · intro now ht0 hd
    have hcond : BruteForceProtection.lockExpired
        ⟨[(x, m)], [(x, tm)], m, d⟩ now x m = true := by
      simp [BruteForceProtection.lockExpired, JsMap.lookup, hd, ht0]
    refine ⟨?_, ?_, ?_⟩
    · simp [BruteForceProtection.isAllowed, BruteForceProtection.clearExpiredLockouts,
        hcond, JsMap.lookup, hm]
      omega
    · simp [BruteForceProtection.isAllowed, BruteForceProtection.clearExpiredLockouts,
        hcond, JsMap.lookup]
    · simp [BruteForceProtection.isAllowed, BruteForceProtection.clearExpiredLockouts,
        hcond, JsMap.lookup]

/-- Witness for C4 with `maxAttempts = 3`, `lockoutDurationMs = 1000` and
failures at 10, 20, 30. -/
theorem C4_lockout_and_expiry_witness :
    ((BruteForceProtection.recordMany (BruteForceProtection.make 3 1000) "id"
        [10, 20, 30]).isAllowed "id" 500).1 = false ∧
    (((BruteForceProtection.recordMany (BruteForceProtection.make 3 1000) "id"
        [10, 20, 30]).resetAttempts "id").isAllowed "id" 600).1 = true ∧
    ((BruteForceProtection.recordMany (BruteForceProtection.make 3 1000) "id"
        [10, 20, 30]).isAllowed "id" 2000).1 = true :=
  ⟨(C4_lockout_and_expiry 3 1000 "id" 10 [20, 30] (by decide) (by decide)).1 500
      (by decide),
   (C4_lockout_and_expiry 3 1000 "id" 10 [20, 30] (by decide) (by decide)).2.1 600,
   ((C4_lockout_and_expiry 3 1000 "id" 10 [20, 30] (by decide) (by decide)).2.2 2000
      (by decide) (by decide)).1⟩

/-- Concrete instance for the C5 counterexample: `maxAttempts = 3`,
`lockoutDuration = 5`, failures recorded at 10, 11, 12. -/
def bfC5 : BruteForceProtection :=
  BruteForceProtection.recordMany (BruteForceProtection.make 3 5) "x" [10, 11, 12]

/-- C5 counterexample: at `now = 20` the lockout has expired
(`now - lastAttemptAt = 8 > 5`), but no purge has happened — the record is
only purged inside `isAllowed` — so a `recordFailedAttempt` arriving next
(with no other operation in between) increments the stale counter to 4
instead of starting a fresh window at count 1, refuting the claim's
"regardless of whether any other operation ran in between". -/
theorem C5_counterexample :
    JsMap.lookup bfC5.failedAttempts "x" = some 3 ∧
    JsMap.lookup bfC5.lastAttemptTime "x" = some 12 ∧
    (5 : Nat) < 20 - 12 ∧
    JsMap.lookup (bfC5.recordFailedAttempt "x" 20).failedAttempts "x" = some 4 ∧
    JsMap.lookup (bfC5.recordFailedAttempt "x" 20).failedAttempts "x" ≠ some 1 := by
  decide

/-- C5 (amended): the purge of an expired lockout is lazy — it is performed
by `isAllowed` (via `clearExpiredLockouts`), not by the passage of time.  If
an `isAllowed(x)` call runs after the lockout has expired, the record is
removed and the next `recordFailedAttempt` starts a fresh window at count 1;
if instead `recordFailedAttempt` runs with no intervening `isAllowed`, the
stale counter is simply incremented. -/
theorem C5_purge_then_fresh_window (bf : BruteForceProtection) (x : String)
    (c t now1 now2 : Nat)
    (hndF : (bf.failedAttempts.map Prod.fst).Nodup)
    (hc : JsMap.lookup bf.failedAttempts x = some c)
    (hm : bf.maxAttempts ≤ c)
    (ht : JsMap.lookup bf.lastAttemptTime x = some t)
    (ht0 : t ≠ 0)
    (hd : bf.lockoutDuration < now1 - t) :
    JsMap.lookup
        (((bf.isAllowed x now1).2.recordFailedAttempt x now2)).failedAttempts x =
      some 1 ∧
    JsMap.lookup (bf.recordFailedAttempt x now2).failedAttempts x = some (c + 1) := by
  constructor
  · have hcond : BruteForceProtection.lockExpired bf now1 x c = true := by
      simp [BruteForceProtection.lockExpired, ht, ht0, hm, hd]
    have hpurged : JsMap.lookup
        ((bf.isAllowed x now1).2).failedAttempts x = none := by
      simp only [BruteForceProtection.isAllowed, BruteForceProtection.clearExpiredLockouts]
      rw [JsMap.lookup_filter_of_nodup bf.failedAttempts _ x c hndF hc]
      simp [hcond]
    simp [BruteForceProtection.recordFailedAttempt, hpurged, JsMap.lookup_set_self]
  · simp [BruteForceProtection.recordFailedAttempt, hc, JsMap.lookup_set_self]

/-- Witness for C5 (amended) at a concrete locked-out state. -/
theorem C5_purge_then_fresh_window_witness :
    JsMap.lookup
        ((((⟨[("x", 3)], [("x", 12)], 3, 5⟩ : BruteForceProtection).isAllowed "x"
            20).2.recordFailedAttempt "x" 21)).failedAttempts "x" = some 1 ∧
    JsMap.lookup
        ((⟨[("x", 3)], [("x", 12)], 3, 5⟩ : BruteForceProtection).recordFailedAttempt
          "x" 21).failedAttempts "x" = some (3 + 1) :=
  C5_purge_then_fresh_window ⟨[("x", 3)], [("x", 12)], 3, 5⟩ "x" 3 12 20 21
    (by decide) (by decide) (by decide) (by decide) (by decide) (by decide)

namespace RateLimiter

/-- The counter update one rule performs: the fetched row (or the default
`{count: 0, resetTime: now + windowMs}`) rolls over when `now > resetTime`
and increments otherwise. -/
def stepInfo (now w : Nat) (pre : Option RateLimitInfo) : RateLimitInfo :=
  let limitInfo := pre.getD { count := 0, resetTime := now + w }
  if limitInfo.resetTime < now then { count := 1, resetTime := now + w }
  else { limitInfo with count := limitInfo.count + 1 }

theorem ruleStep_eq (clientId : String) (now : Nat)
    (acc : List (RLKey × RateLimitInfo) × Bool) (rule : RateLimitRule) :
    ruleStep clientId now acc rule =
      (JsMap.set acc.1 (clientId, rule.windowMs)
        (stepInfo now rule.windowMs (JsMap.lookup acc.1 (clientId, rule.windowMs))),
       acc.2 && !(rule.maxRequests <
        (stepInfo now rule.windowMs
          (JsMap.lookup acc.1 (clientId, rule.windowMs))).count)) := rfl

theorem all_congr_mem {β : Type} (l : List β) (f g : β → Bool)
    (h : ∀ x ∈ l, f x = g x) : l.all f = l.all g := by
  induction l with
  | nil => rfl
  | cons x rest ih =>
    simp only [List.all_cons, h x (by simp), ih (fun y hy => h y (by simp [hy]))]

/-- Characterization of the `rules.forEach` fold of `isAllowed`, for rule
lists whose windows are pairwise distinct: the returned flag is the
conjunction over all rules of "post-increment count within bound", computed
independently on the incoming storage, every rule's key holds its
post-increment row, and all other keys are untouched. -/
theorem foldl_ruleStep_char (clientId : String) (now : Nat) :
    ∀ (rules : List RateLimitRule) (s : List (RLKey × RateLimitInfo)) (b : Bool),
      (rules.map RateLimitRule.windowMs).Nodup →
      ((rules.foldl (ruleStep clientId now) (s, b)).2 =
        (b && rules.all (fun r =>
          !(r.maxRequests < (stepInfo now r.windowMs
              (JsMap.lookup s (clientId, r.windowMs))).count)))) ∧
      (∀ r ∈ rules,
        JsMap.lookup (rules.foldl (ruleStep clientId now) (s, b)).1
            (clientId, r.windowMs) =
          some (stepInfo now r.windowMs (JsMap.lookup s (clientId, r.windowMs)))) ∧
      (∀ k : RLKey, k ∉ rules.map (fun r => ((clientId, r.windowMs) : RLKey)) →
        JsMap.lookup (rules.foldl (ruleStep clientId now) (s, b)).1 k =
          JsMap.lookup s k) := by
  intro rules
  induction rules with
  | nil =>
    intro s b _
    refine ⟨by simp, by simp, fun k _ => rfl⟩
  | cons r rest ih =>
    intro s b hnd
    simp only [List.map_cons, List.nodup_cons] at hnd
    have hfold : (r :: rest).foldl (ruleStep clientId now) (s, b) =
        rest.foldl (ruleStep clientId now)
          (JsMap.set s (clientId, r.windowMs)
            (stepInfo now r.windowMs (JsMap.lookup s (clientId, r.windowMs))),
           b && !(r.maxRequests <
            (stepInfo now r.windowMs
              (JsMap.lookup s (clientId, r.windowMs))).count)) := by
      rw [List.foldl_cons, ruleStep_eq]
    obtain ⟨ihsnd, ihmem, ihframe⟩ := ih
      (JsMap.set s (clientId, r.windowMs)
        (stepInfo now r.windowMs (JsMap.lookup s (clientId, r.windowMs))))
      (b && !(r.maxRequests <
        (stepInfo now r.windowMs
          (JsMap.lookup s (clientId, r.windowMs))).count)) hnd.2
    have hkeyne : ∀ r' ∈ rest, ((clientId, r'.windowMs) : RLKey) ≠ (clientId, r.windowMs) := by
      intro r' hr' hcontra
      have : r'.windowMs = r.windowMs := congrArg Prod.snd hcontra
      exact hnd.1 (this ▸ List.mem_map_of_mem RateLimitRule.windowMs hr')
    have hlook : ∀ r' ∈ rest,
        JsMap.lookup
          (JsMap.set s (clientId, r.windowMs)
            (stepInfo now r.windowMs (JsMap.lookup s (clientId, r.windowMs))))
          (clientId, r'.windowMs) = JsMap.lookup s (clientId, r'.windowMs) := by
      intro r' hr'
      exact JsMap.lookup_set_ne s (clientId, r.windowMs) (clientId, r'.windowMs) _
        (fun hcontra => hkeyne r' hr' hcontra.symm)
    refine ⟨?_, ?_, ?_⟩
    · rw [hfold, ihsnd, List.all_cons]
      rw [all_congr_mem rest _ _ (fun r' hr' => by rw [hlook r' hr'])]
      rw [Bool.and_assoc]
    · intro r' hr'
      rcases List.mem_cons.mp hr' with hhead | htail
      · subst hhead
        rw [hfold]
        have hnotin : ((clientId, r'.windowMs) : RLKey) ∉
            rest.map (fun rr => ((clientId, rr.windowMs) : RLKey)) := by
          intro hmem
          obtain ⟨rr, hrr, heq⟩ := List.mem_map.mp hmem
          exact hkeyne rr hrr heq
        rw [ihframe _ hnotin, JsMap.lookup_set_self]
      · rw [hfold, ihmem r' htail, hlook r' htail]
    · intro k hk
      simp only [List.map_cons, List.mem_cons] at hk
      push_neg at hk
      rw [hfold, ihframe k hk.2,
        JsMap.lookup_set_ne s (clientId, r.windowMs) k _ (fun h => hk.1 h.symm)]

/-- Bridging the fold-level row update to the spec-level
`windowCounterAfter`. -/
theorem windowCounterAfter_eq_stepInfo (rl : RateLimiter) (clientId : String)
    (now : Nat) (r : RateLimitRule) :
    rl.windowCounterAfter clientId now r =
      stepInfo now r.windowMs
        (JsMap.lookup (rl.cleanup now).storage (clientId, r.windowMs)) := by
  cases h : JsMap.lookup (rl.cleanup now).storage (clientId, r.windowMs) with
  | none =>
    simp [windowCounterAfter, h, stepInfo, Nat.not_lt.mpr (Nat.le_add_right now r.windowMs)]
  | some info =>
    simp only [windowCounterAfter, h, stepInfo, Option.getD_some]

end RateLimiter

/-- C3: with pairwise-distinct windows, `isAllowed(clientId)` keeps one
counter per `(clientId, windowMs)` key — rolling the window over
(`count := 1`, `resetTime := now + windowMs`) when `now > resetTime` and
incrementing otherwise — updates the counter of **every** rule regardless of
the outcome (a denied request still consumes quota on every rule, witnessed
by the storage conjunct being independent of the returned flag), leaves
other clients' keys untouched, and returns false iff the post-increment
count of at least one rule exceeds its `maxRequests`
(`isAllowedSpec`, written from the spec's words).  The closed conjunct is
the claim's scenario `{windowMs: 1000, maxRequests: 2}`: calls at 100, 200,
300 and 1500 yield true, true, false, true. -/
theorem C3_isAllowed_counters :
    (∀ (rl : RateLimiter) (clientId : String) (now : Nat),
      (rl.rules.map RateLimitRule.windowMs).Nodup →
      ((rl.isAllowed clientId now).1 = rl.isAllowedSpec clientId now ∧
       (∀ r ∈ rl.rules,
         JsMap.lookup (rl.isAllowed clientId now).2.storage (clientId, r.windowMs) =
           some (rl.windowCounterAfter clientId now r)) ∧
       (∀ k : RLKey, k.1 ≠ clientId →
         JsMap.lookup (rl.isAllowed clientId now).2.storage k =
           JsMap.lookup (rl.cleanup now).storage k))) ∧
    RateLimiter.runCalls ⟨[], [⟨1000, 2⟩]⟩
        [("c", 100), ("c", 200), ("c", 300), ("c", 1500)] =
      [true, true, false, true] := by
  constructor
  · intro rl clientId now hnd
    obtain ⟨hsnd, hmem, hframe⟩ :=
      RateLimiter.foldl_ruleStep_char clientId now rl.rules
        (rl.cleanup now).storage true hnd
    refine ⟨?_, ?_, ?_⟩
    · show (rl.rules.foldl (RateLimiter.ruleStep clientId now)
          ((rl.cleanup now).storage, true)).2 = _
      rw [hsnd, Bool.true_and, RateLimiter.isAllowedSpec]
      refine RateLimiter.all_congr_mem rl.rules _ _ (fun r hr => ?_)
      rw [RateLimiter.windowCounterAfter_eq_stepInfo rl clientId now r]
      by_cases hle :
          (RateLimiter.stepInfo now r.windowMs
            (JsMap.lookup (rl.cleanup now).storage (clientId, r.windowMs))).count ≤
            r.maxRequests
      · simp [hle, Nat.not_lt.mpr hle]
      · simp only [decide_eq_false hle]
        simp [Nat.lt_of_not_le hle]
    · intro r hr
      show JsMap.lookup (rl.rules.foldl (RateLimiter.ruleStep clientId now)
          ((rl.cleanup now).storage, true)).1 (clientId, r.windowMs) = _
      rw [hmem r hr, RateLimiter.windowCounterAfter_eq_stepInfo rl clientId now r]
    · intro k hk
      show JsMap.lookup (rl.rules.foldl (RateLimiter.ruleStep clientId now)
          ((rl.cleanup now).storage, true)).1 k = _
      refine hframe k (fun hmemk => ?_)
      obtain ⟨rr, _, heq⟩ := List.mem_map.mp hmemk
      exact hk (congrArg Prod.fst heq.symm)
  · decide

/-- Witness for C3 at a one-rule limiter holding a live row `{count: 1,
resetTime: 60}` read at time 55. -/
theorem C3_isAllowed_counters_witness :
    ((⟨[(("w", 50), ⟨1, 60⟩)], [⟨50, 1⟩]⟩ : RateLimiter).isAllowed "w" 55).1 =
      (⟨[(("w", 50), ⟨1, 60⟩)], [⟨50, 1⟩]⟩ : RateLimiter).isAllowedSpec "w" 55 :=
  (C3_isAllowed_counters.1 ⟨[(("w", 50), ⟨1, 60⟩)], [⟨50, 1⟩]⟩ "w" 55 (by decide)).1

namespace RateLimiter

/-- The rows of the storage that belong to client `b` (those whose key's
client component is `b`). -/
def projClient (b : String) (s : List (RLKey × RateLimitInfo)) :
    List (RLKey × RateLimitInfo) :=
  s.filter (fun kv => kv.1.1 = b)

/-- The bare storage sweep `cleanup` performs at time `t`. -/
def sweep (s : List (RLKey × RateLimitInfo)) (t : Nat) :
    List (RLKey × RateLimitInfo) :=
  s.filter (fun kv => !(kv.2.resetTime < t))

theorem cleanup_storage_eq (rl : RateLimiter) (t : Nat) :
    (rl.cleanup t).storage = sweep rl.storage t := rfl

theorem lookup_projClient (b : String) (s : List (RLKey × RateLimitInfo))
    (w : Nat) :
    JsMap.lookup (projClient b s) (b, w) = JsMap.lookup s (b, w) := by
  induction s with
  | nil => rfl
  | cons kv rest ih =>
    by_cases hb : kv.1.1 = b
    · by_cases hk : kv.1 = (b, w)
      · simp [projClient, List.filter_cons, hb, JsMap.lookup, hk]
      · simp only [projClient, List.filter_cons, decide_eq_true_eq, hb, if_pos,
          JsMap.lookup, hk, if_neg, ite_false]
        simpa [projClient] using ih
    · have hk : ¬kv.1 = (b, w) := fun hcontra => hb (by rw [hcontra])
      simp only [projClient, List.filter_cons, decide_eq_true_eq, hb, ite_false,
        JsMap.lookup, hk, if_neg]
      simpa [projClient] using ih

theorem projClient_set_self (b : String) (s : List (RLKey × RateLimitInfo))
    (w : Nat) (v : RateLimitInfo) :
    projClient b (JsMap.set s (b, w) v) = JsMap.set (projClient b s) (b, w) v := by
  induction s with
  | nil => simp [projClient, JsMap.set]
  | cons kv rest ih =>
    by_cases hk : kv.1 = (b, w)
    · have hb : kv.1.1 = b := by rw [hk]
      simp [projClient, JsMap.set, hk, List.filter_cons, hb]
    · by_cases hb : kv.1.1 = b
      · simp [projClient, JsMap.set, hk, List.filter_cons, hb] at ih ⊢
        exact ih
      · simp [projClient, JsMap.set, hk, List.filter_cons, hb] at ih ⊢
        exact ih

theorem projClient_set_other (a b : String) (hab : a ≠ b)
    (s : List (RLKey × RateLimitInfo)) (w : Nat) (v : RateLimitInfo) :
    projClient b (JsMap.set s (a, w) v) = projClient b s := by
  induction s with
  | nil => simp [projClient, JsMap.set, hab]
  | cons kv rest ih =>
    by_cases hk : kv.1 = (a, w)
    · have hb : ¬kv.1.1 = b := by rw [hk]; exact hab
      simp [projClient, JsMap.set, hk, List.filter_cons, hb, hab]
    · by_cases hb : kv.1.1 = b
      · simp [projClient, JsMap.set, hk, List.filter_cons, hb] at ih ⊢
        exact ih
      · simp [projClient, JsMap.set, hk, List.filter_cons, hb] at ih ⊢
        exact ih

theorem projClient_filter (b : String) (p : RLKey × RateLimitInfo → Bool)
    (s : List (RLKey × RateLimitInfo)) :
    projClient b (s.filter p) = (projClient b s).filter p := by
  induction s with
  | nil => rfl
  | cons kv rest ih =>
    by_cases hp : p kv
    · by_cases hb : kv.1.1 = b
      · simp [projClient, List.filter_cons, hp, hb] at ih ⊢
        exact ih
      · simp [projClient, List.filter_cons, hp, hb] at ih ⊢
        exact ih
    · by_cases hb : kv.1.1 = b
      · simp [projClient, List.filter_cons, hp, hb] at ih ⊢
        exact ih
      · simp [projClient, List.filter_cons, hp, hb] at ih ⊢
        exact ih

/-- Sweeping at `t0` and then at a later `t1` is the same as sweeping at
`t1` alone: a row deleted early would have been deleted anyway. -/
theorem sweep_sweep (s : List (RLKey × RateLimitInfo)) (t0 t1 : Nat)
    (h : t0 ≤ t1) : sweep (sweep s t0) t1 = sweep s t1 := by
  induction s with
  | nil => rfl
  | cons kv rest ih =>
    by_cases h0 : kv.2.resetTime < t0
    · have h1 : kv.2.resetTime < t1 := by omega
      simp [sweep, List.filter_cons, h0, h1] at ih ⊢
      exact ih
    · by_cases h1 : kv.2.resetTime < t1
      · simp [sweep, List.filter_cons, h0, h1] at ih ⊢
        exact ih
      · simp [sweep, List.filter_cons, h0, h1] at ih ⊢
        exact ih

/-- The fold of `isAllowed` for client `b` reads and writes only `b`'s rows:
on two storages with the same `b`-projection it returns the same flag and
leaves equal `b`-projections. -/
theorem foldl_ruleStep_proj_eq (b : String) (now : Nat) :
    ∀ (rules : List RateLimitRule) (s1 s2 : List (RLKey × RateLimitInfo))
      (bb : Bool), projClient b s1 = projClient b s2 →
      (rules.foldl (ruleStep b now) (s1, bb)).2 =
          (rules.foldl (ruleStep b now) (s2, bb)).2 ∧
      projClient b (rules.foldl (ruleStep b now) (s1, bb)).1 =
          projClient b (rules.foldl (ruleStep b now) (s2, bb)).1 := by
  intro rules
  induction rules with
  | nil => intro s1 s2 bb h; exact ⟨rfl, h⟩
  | cons r rest ih =>
    intro s1 s2 bb h
    have hlook : JsMap.lookup s1 (b, r.windowMs) = JsMap.lookup s2 (b, r.windowMs) := by
      rw [← lookup_projClient b s1, ← lookup_projClient b s2, h]
    have hproj : projClient b
        (JsMap.set s1 (b, r.windowMs)
          (stepInfo now r.windowMs (JsMap.lookup s1 (b, r.windowMs)))) =
        projClient b
          (JsMap.set s2 (b, r.windowMs)
            (stepInfo now r.windowMs (JsMap.lookup s2 (b, r.windowMs)))) := by
      rw [projClient_set_self, projClient_set_self, h, hlook]
    have := ih _ _
      (bb && !(r.maxRequests <
        (stepInfo now r.windowMs (JsMap.lookup s1 (b, r.windowMs))).count)) hproj
    rw [List.foldl_cons, List.foldl_cons, ruleStep_eq, ruleStep_eq, hlook]
    rw [hlook] at this
    exact this

/-- The fold of `isAllowed` for a client `a ≠ b` never touches `b`'s rows. -/
theorem foldl_ruleStep_proj_other (a b : String) (hab : a ≠ b) (now : Nat) :
    ∀ (rules : List RateLimitRule) (s : List (RLKey × RateLimitInfo)) (bb : Bool),
      projClient b (rules.foldl (ruleStep a now) (s, bb)).1 = projClient b s := by
  intro rules
  induction rules with
  | nil => intro s bb; rfl
  | cons r rest ih =>
    intro s bb
    rw [List.foldl_cons, ruleStep_eq]
    rw [ih]
    exact projClient_set_other a b hab s r.windowMs _

/-- Runs of `isAllowed(b, ·)` are determined by `b`'s swept rows: two
limiters with the same rules whose storages have equal `b`-projections after
the sweep at each call time produce identical result sequences. -/
theorem runCalls_proj_invariant (b : String) (rules : List RateLimitRule) :
    ∀ (bTimes : List Nat) (s1 s2 : List (RLKey × RateLimitInfo)),
      (∀ t ∈ bTimes, projClient b (sweep s1 t) = projClient b (sweep s2 t)) →
      runCalls ⟨s1, rules⟩ (bTimes.map (fun t => (b, t))) =
        runCalls ⟨s2, rules⟩ (bTimes.map (fun t => (b, t))) := by
  intro bTimes
  induction bTimes with
  | nil => intro s1 s2 _; rfl
  | cons t rest ih =>
    intro s1 s2 h
    have hhead : projClient b (sweep s1 t) = projClient b (sweep s2 t) :=
      h t (by simp)
    obtain ⟨hsnd, hproj⟩ :=
      foldl_ruleStep_proj_eq b t rules (sweep s1 t) (sweep s2 t) true hhead
    have hrest : ∀ t' ∈ rest,
        projClient b (sweep (rules.foldl (ruleStep b t) (sweep s1 t, true)).1 t') =
          projClient b (sweep (rules.foldl (ruleStep b t) (sweep s2 t, true)).1 t') := by
      intro t' _
      show projClient b (List.filter _ _) = projClient b (List.filter _ _)
      rw [show (fun kv : RLKey × RateLimitInfo => !(kv.2.resetTime < t')) =
        (fun kv : RLKey × RateLimitInfo => !(kv.2.resetTime < t')) from rfl]
      rw [projClient_filter, projClient_filter, hproj]
    simp only [List.map_cons, runCalls, isAllowed, cleanup_storage_eq]
    rw [hsnd]
    exact congrArg _ (ih _ _ hrest)

end RateLimiter

/-- C10: rate limiting is independent across clients: for `a ≠ b`, inserting
a call `isAllowed(a)` at time `t0` before any sequence of `isAllowed(b)`
calls at times `≥ t0` (time is monotone) leaves the results of all of `b`'s
calls unchanged — even though the cleanup pass at the start of `a`'s call
may delete `b`'s expired rows, deleting a row whose `resetTime` has passed
is observationally equivalent to letting it roll over at `b`'s next call. -/
theorem C10_cross_client_isolation (rl : RateLimiter) (a b : String)
    (hab : a ≠ b) (t0 : Nat) (bTimes : List Nat)
    (hmono : ∀ t ∈ bTimes, t0 ≤ t) :
    RateLimiter.runCalls (rl.isAllowed a t0).2 (bTimes.map (fun t => (b, t))) =
      RateLimiter.runCalls rl (bTimes.map (fun t => (b, t))) := by
  obtain ⟨s1, rules⟩ := rl
  have hstate : (RateLimiter.isAllowed ⟨s1, rules⟩ a t0).2 =
      ⟨(rules.foldl (RateLimiter.ruleStep a t0)
        (RateLimiter.sweep s1 t0, true)).1, rules⟩ := rfl
  rw [hstate]
  refine RateLimiter.runCalls_proj_invariant b rules bTimes _ s1 (fun t ht => ?_)
  have ht0 : t0 ≤ t := hmono t ht
  rw [show RateLimiter.sweep
      (rules.foldl (RateLimiter.ruleStep a t0) (RateLimiter.sweep s1 t0, true)).1 t =
      List.filter (fun kv => !(kv.2.resetTime < t))
        (rules.foldl (RateLimiter.ruleStep a t0) (RateLimiter.sweep s1 t0, true)).1
    from rfl]
  rw [RateLimiter.projClient_filter,
    RateLimiter.foldl_ruleStep_proj_other a b hab t0 rules _ true,
    ← RateLimiter.projClient_filter]
  show RateLimiter.projClient b (RateLimiter.sweep (RateLimiter.sweep s1 t0) t) = _
  rw [RateLimiter.sweep_sweep s1 t0 t ht0]

/-- Witness for C10: an `isAllowed("a")` call at time 5 does not change the
results of `"b"`'s later calls at times 10 and 20. -/
theorem C10_cross_client_isolation_witness :
    RateLimiter.runCalls
        ((⟨[(("b", 100), ⟨2, 8⟩)], [⟨100, 2⟩]⟩ : RateLimiter).isAllowed "a" 5).2
        ([10, 20].map (fun t => ("b", t))) =
      RateLimiter.runCalls (⟨[(("b", 100), ⟨2, 8⟩)], [⟨100, 2⟩]⟩ : RateLimiter)
        ([10, 20].map (fun t => ("b", t))) :=
  C10_cross_client_isolation ⟨[(("b", 100), ⟨2, 8⟩)], [⟨100, 2⟩]⟩ "a" "b"
    (by decide) 5 [10, 20] (by decide)
